import Mathlib

/-!
Verification development for the dcontrol deployment controller.

The repository contains three revisions of the program:

* an early password-based revision (src/unnamed/part_004, and the first half of
  src/lib.go, lines 1-396 of the concatenated file) — called `RevA` below where
  it differs;
* a later password-based revision (second half of src/lib.go, lines 397-956)
  — modelled in namespace `Lib`;
* the certificate-based revision (src/server.go, src/main.go, src/client.go)
  — modelled in namespace `Cert`.

Filesystem effects (os.Rename, os.RemoveAll, ioutil.ReadDir) are embedded as
explicit state passing over an abstract state: the content at the target's
artifact path, the contents of the backup directory (an association list of
file name to content), and counters of the externally observable actions
(hook executions, systemctl invocations, artifact-to-backup moves).  External
process execution (hooks) and fallible deletes are resolved by explicit oracle
booleans passed in, since their outcome is decided by the operating system.
Renames whose failure the claims do not exercise are modelled as succeeding,
except where the source itself can receive a nonexistent source path (there
the rename fails, as in POSIX).
-/

/-- Contents of the backup directory: file name paired with file content. -/
abbrev BakDir : Type := List (String × String)

/-- File names present in a backup directory. -/
def keysOf (bs : BakDir) : List String := bs.map Prod.fst

/-- Reading a file of the backup directory: the content stored under the
first entry carrying that name, if any (os.Rename from that path). -/
def lookupBak (bs : BakDir) (k : String) : Option String :=
  match bs.find? (fun b => b.1 == k) with
  | some b => some b.2
  | none => none

/-- Removing a file from the backup directory (os.Remove / os.Rename away). -/
def eraseBak (bs : BakDir) (k : String) : BakDir :=
  bs.filter (fun b => !(b.1 == k))

/-- Writing a file into the backup directory by os.Rename, which replaces an
existing file of the same name. -/
def insertBak (bs : BakDir) (k v : String) : BakDir :=
  eraseBak bs k ++ [(k, v)]

namespace Cert

/-- Modelled from the spec: the status codes of the status protocol
(spec section 4.2 and src/server.go usage sites); the constants StatusOK,
StatusNotOK, StatusUnsupported, StatusBlocked, StatusNotExist are declared in
a repository file that is not under src/. -/
inductive Status where
  | ok
  | notOK
  | unsupported
  | blocked
  | notExist
deriving DecidableEq

/-- Modelled from the spec: the Target record of the data model (spec section 3
and the repository README); its Go declaration is not under src/.  Fields are
the ones used by src/server.go: Name, Filename, Authorized, Before, After. -/
structure Target where
  Name : String
  Filename : String
  Authorized : List String
  Before : String
  After : String
deriving DecidableEq

/-- Modelled from the spec: daemon configuration (authority of
credential-to-name mappings, backup directory, targets); its Go declaration is
not under src/. -/
structure Config where
  AuthorizedKeys : List (String × String)
  BackupDirectory : String
  Targets : List Target
deriving DecidableEq

/-- Modelled from the spec: Config.GetSignatureName resolves a credential in
the authority; a credential with no matching entry yields the empty name
(Unauthenticated, spec section 4.3).  The Go method is not under src/; the
in-memory registry lookup itself cannot fail. -/
def Config.GetSignatureName (c : Config) (sig : String) : String :=
  match c.AuthorizedKeys.find? (fun kv => kv.1 == sig) with
  | some kv => kv.2
  | none => ""

/-- Modelled from the spec: Config.GetTargetByName returns the target with the
requested name, or nothing when no target of that name is configured.  The Go
method is not under src/. -/
def Config.GetTargetByName (c : Config) (n : String) : Option Target :=
  c.Targets.find? (fun t => t.Name == n)

/-- Modelled from the spec: Target.Allows — true iff the target's authorized
set contains the principal's name or the wildcard entry (spec section 4.3 and
the README example Authorized = ["*"]).  The Go method is not under src/. -/
def Target.Allows (t : Target) (n : String) : Bool :=
  t.Authorized.contains n || t.Authorized.contains "*"

/-- Deployment-engine state: the content at the target's artifact path, the
backup directory, and counters of observable actions. -/
structure DState where
  artifact : Option String
  backups : BakDir
  beforeRuns : Nat := 0
  afterRuns : Nat := 0
  backupMoves : Nat := 0
deriving DecidableEq

/-- Outcomes of the external commands a session may spawn: the Before script,
the first After script run, the After re-run inside restore, and the
os.RemoveAll of the backup at commit. -/
structure Hooks where
  beforeOk : Bool
  afterOk : Bool
  afterOk2 : Bool
  deleteOk : Bool
deriving DecidableEq

/-- RunScript (src/server.go 204-224): a blank command — one whose
strings.TrimSpace is empty, that is, one all of whose characters are
whitespace — is a no-op success; otherwise the spawned command's success is
the oracle outcome. -/
def RunScript (command : String) (ok : Bool) : Bool :=
  if command.data.all (fun ch => ch.isWhitespace) then true else ok

/-- The timestamped backup file name produced by BackupTarget
(target.Name + time.Now().Format(".20060102150405.bak")); the timestamp is
abstracted to a fixed infix. -/
def bakName (t : Target) : String := t.Name ++ ".TS.bak"

/-- BackupTarget (src/server.go 177-195): when nothing exists at the target
path report no backup (empty name); otherwise rename the artifact into the
backup directory under a timestamped name.  MkdirAll and the rename are
modelled as succeeding. -/
def BackupTarget (t : Target) (s : DState) : String × DState :=
  match s.artifact with
  | none => ("", s)
  | some a =>
      (bakName t,
       { s with
           artifact := none
           backups := insertBak s.backups (bakName t) a
           backupMoves := s.backupMoves + 1 })

/-- MoveTarget (src/server.go 158-175): requires exactly one top-level staging
entry, then renames it onto the target path; none models ErrInvalidPayload. -/
def MoveTarget (staged : List (String × String)) (s : DState) : Option DState :=
  match staged with
  | [e] => some { s with artifact := some e.2 }
  | _ => none

/-- The restore closure (src/server.go 108-118): os.RemoveAll the failed
artifact, rename the backup back onto the target path (this os.Rename fails
when the backup name is empty or absent, and then the After script is not
re-run), then re-run the After script.  The Bool is the closure's success. -/
def Restore (t : Target) (backup : String) (h : Hooks) (s : DState) : Bool × DState :=
  let s1 : DState := { s with artifact := none }
  match lookupBak s1.backups backup with
  | none => (false, s1)
  | some a =>
      let s2 : DState :=
        { s1 with artifact := some a, backups := eraseBak s1.backups backup }
      let s3 : DState := { s2 with afterRuns := s2.afterRuns + 1 }
      (RunScript t.After h.afterOk2, s3)

/-- The deployment-engine portion of HandleServerConn (src/server.go 96-155):
Before script, backup, move, After script, rollback on move or After failure,
backup deletion at commit with failure only logged. -/
def DeployEngine (t : Target) (staged : List (String × String)) (h : Hooks)
    (s0 : DState) : Status × DState :=
  let s1 : DState := { s0 with beforeRuns := s0.beforeRuns + 1 }
  if !(RunScript t.Before h.beforeOk) then (.notOK, s1)
  else
    let bs := BackupTarget t s1
    match MoveTarget staged bs.2 with
    | none => (.notOK, (Restore t bs.1 h bs.2).2)
    | some s3 =>
        let s4 : DState := { s3 with afterRuns := s3.afterRuns + 1 }
        if !(RunScript t.After h.afterOk) then (.notOK, (Restore t bs.1 h s4).2)
        else
          let s5 : DState :=
            if bs.1 = "" then s4
            else if h.deleteOk then { s4 with backups := eraseBak s4.backups bs.1 }
            else s4
          (.ok, s5)

/-- The commands of the framed protocol; unknown identifiers fall into the
default branch of the switch in src/server.go 43-52. -/
inductive Command where
  | deploy
  | ping
  | other
deriving DecidableEq

/-- HandleServerConn (src/server.go 29-156), after the TLS handshake: command
dispatch, identity resolution, target existence, authorization, payload
streaming and unpacking (their success given by streamOk and unpackOk), then
the deployment engine.  The transport calls themselves (goio) are an external
collaborator; the status returned here is the argument the code passes to
goio.Ok and goio.NotOk. -/
def HandleServerConn (cfg : Config) (sig : String) (cmd : Command) (input : String)
    (streamOk unpackOk : Bool) (staged : List (String × String)) (h : Hooks)
    (s : DState) : Status × DState :=
  match cmd with
  | .ping => (.ok, s)
  | .other => (.unsupported, s)
  | .deploy =>
      let name := cfg.GetSignatureName sig
      if name = "" then (.blocked, s)
      else
        match cfg.GetTargetByName input with
        | none => (.notExist, s)
        | some t =>
            if !(t.Allows name) then (.blocked, s)
            else if !streamOk then (.notOK, s)
            else if !unpackOk then (.notOK, s)
            else DeployEngine t staged h s

end Cert

namespace Lib

/-- The Unit record of the second password-based revision
(src/lib.go 451-458); named GoUnit because Unit is taken in Lean. -/
structure GoUnit where
  AllowedActors : List String
  Filepath : String
  Name : String
  SystemTargets : List String
  AfterCmds : List String
  BeforeCmds : List String
deriving DecidableEq

/-- Actor record (src/lib.go 446-449). -/
structure Actor where
  Name : String
  Password : String
deriving DecidableEq

/-- Conf record (src/lib.go 440-444). -/
structure Conf where
  Actors : List Actor
  Units : List GoUnit
  BackupDirectory : String
deriving DecidableEq

/-- StrInList (src/lib.go 914-921). -/
def StrInList (xs : List String) (x : String) : Bool :=
  match xs with
  | [] => false
  | y :: ys => if x = y then true else StrInList ys x

/-- The unit loop of CheckAuth (src/lib.go 895-905): returns false at the
first unit carrying the requested name that does not allow the actor;
otherwise collects unit names and finally requires the requested unit to
exist. -/
def checkUnitsLoop : List GoUnit → String → String → List String → Bool
  | [], unit, _, xs => StrInList xs unit
  | x :: rest, unit, name, xs =>
      if x.Name = unit ∧ StrInList x.AllowedActors name = false then false
      else checkUnitsLoop rest unit name (xs ++ [x.Name])

/-- CheckAuth (src/lib.go 885-908): the actor must exist in the authority,
every configured unit carrying the requested name must list the actor, and the
requested unit must exist. -/
def CheckAuth (c : Conf) (unit name : String) : Bool :=
  if StrInList (c.Actors.map (fun x => x.Name)) name = false then false
  else checkUnitsLoop c.Units unit name []

/-- GetUnit (src/lib.go 867-874): first unit with the requested name, or the
zero value. -/
def GetUnit (c : Conf) (name : String) : GoUnit :=
  match c.Units.find? (fun x => x.Name == name) with
  | some x => x
  | none => { AllowedActors := [], Filepath := "", Name := ""
              SystemTargets := [], AfterCmds := [], BeforeCmds := [] }

/-- GetPass (src/lib.go 876-883). -/
def GetPass (c : Conf) (name : String) : String :=
  match c.Actors.find? (fun x => x.Name == name) with
  | some x => x.Password
  | none => ""

/-- RunUnitCmds (src/lib.go 709-731): an empty command list trivially
succeeds; otherwise the spawned commands' collective success is the oracle
outcome. -/
def RunUnitCmds (cmds : List String) (ok : Bool) : Bool :=
  match cmds with
  | [] => true
  | _ => ok

/-- Engine state of the lib revision: artifact content, backup directory, and
counters of the observable systemctl and command executions. -/
structure LState where
  artifact : Option String
  backups : BakDir
  stops : Nat := 0
  starts : Nat := 0
  restarts : Nat := 0
  backupMoves : Nat := 0
deriving DecidableEq

/-- Oracle outcomes for the lib revision: BeforeCmds, AfterCmds, the
os.RemoveAll of the failed backup inside restoreBackup, and the os.RemoveAll
of the backup at commit. -/
structure LibHooks where
  beforeOk : Bool
  afterOk : Bool
  deleteFailedOk : Bool
  deleteBackupOk : Bool
deriving DecidableEq

/-- Timestamped backup path created by AcceptPayload
(path.Join(c.BackupDirectory, unit.Name+time.Now().Format(".20060102150405.bak"))),
timestamp abstracted to a fixed infix. -/
def bakName (c : Conf) (u : GoUnit) : String :=
  c.BackupDirectory ++ "/" ++ u.Name ++ ".TS.bak"

/-- Timestamped failed-backup path created by restoreBackup
(format ".20060102150405.failed.bak"). -/
def failedBakName (c : Conf) (u : GoUnit) : String :=
  c.BackupDirectory ++ "/" ++ u.Name ++ ".TS.failed.bak"

/-- The restoreBackup closure (src/lib.go 646-673): rename the failing
artifact to a failed-backup name, rename the original backup back, restart the
systemd targets (TriggerUnit never reports failure), delete the failed backup,
and report the deployment as failed; with no backup the original error is
returned unchanged. -/
def restoreBackup (c : Conf) (u : GoUnit) (h : LibHooks) (backupExists : Bool)
    (backupPath : String) (errMsg : String) (s : LState) : Option String × LState :=
  if backupExists then
    let fb := failedBakName c u
    match s.artifact with
    | none => (some "rename to failed backup errored", s)
    | some cur =>
        let s1 : LState :=
          { s with artifact := none, backups := insertBak s.backups fb cur }
        match lookupBak s1.backups backupPath with
        | none => (some "restore rename errored", s1)
        | some old =>
            let s2 : LState :=
              { s1 with
                  artifact := some old
                  backups := eraseBak s1.backups backupPath }
            let s3 : LState := { s2 with restarts := s2.restarts + 1 }
            if h.deleteFailedOk then
              (some "deploy failed - restored backup",
               { s3 with backups := eraseBak s3.backups fb })
            else (some "delete failed backup errored", s3)
  else (some errMsg, s)

/-- The deployment portion of AcceptPayload (src/lib.go 599-698), given the
resolved unit and the top-level staging entries: stop the systemd targets
(TriggerUnit logs command failures and always returns nil, so neither the stop
nor the later start can branch), back up an existing artifact, require exactly
one staging entry, rename it onto the unit path, run BeforeCmds, start the
systemd targets, run AfterCmds, and delete the backup — a delete failure is
returned as the session's error.  The receive, authentication, decryption and
unpack prefix of the function is embedded separately for its own claims. -/
def AcceptPayload (c : Conf) (u : GoUnit) (staged : List (String × String))
    (h : LibHooks) (s0 : LState) : Option String × LState :=
  let s1 : LState := { s0 with stops := s0.stops + 1 }
  let bk : Bool × String × LState :=
    match s1.artifact with
    | some a =>
        (true, bakName c u,
         { s1 with
             artifact := none
             backups := insertBak s1.backups (bakName c u) a
             backupMoves := s1.backupMoves + 1 })
    | none => (false, "", s1)
  match staged with
  | [e] =>
      let s3 : LState := { bk.2.2 with artifact := some e.2 }
      if !(RunUnitCmds u.BeforeCmds h.beforeOk) then
        restoreBackup c u h bk.1 bk.2.1 "before cmds errored" s3
      else
        let s4 : LState := { s3 with starts := s3.starts + 1 }
        if !(RunUnitCmds u.AfterCmds h.afterOk) then
          restoreBackup c u h bk.1 bk.2.1 "after cmds errored" s4
        else
          if bk.2.1 = "" then (none, s4)
          else if h.deleteBackupOk then
            (none, { s4 with backups := eraseBak s4.backups bk.2.1 })
          else (some "delete backup errored", s4)
  | _ => (some "expected a single item in tar", bk.2.2)

end Lib

namespace ReadSec

/-- The 1 KiB chunk bound (src/lib.go 28 and 425). -/
def bufferSize : Int := 1024

/-- Result of a ReadConnSec run under bounded fuel: still looping when the
fuel runs out, an I/O error from io.CopyN, or the accumulated bytes. -/
inductive RRes where
  | diverge
  | ioErr
  | ok : List Nat → RRes
deriving DecidableEq

/-- io.CopyN from the connection into the buffer: succeeds exactly when the
requested count is available (a non-positive count copies nothing and
succeeds), consuming the copied bytes. -/
def copyN (avail : List Nat) (n : Nat) : Option (List Nat × List Nat) :=
  if n ≤ avail.length then some (avail.take n, avail.drop n) else none

/-- The loop of ReadConnSec in the first revision (src/lib.go 66-85): the
inner size variable is initialised to bufferSize and shadows the requested
size, so remaining is computed against bufferSize rather than against the
request. -/
def loopA : Nat → Int → List Nat → List Nat → Int → RRes
  | 0, _, _, _, _ => .diverge
  | fuel + 1, size, avail, acc, receivedBytes =>
      if receivedBytes ≥ size then .ok acc
      else
        let size2 : Int := bufferSize
        let remaining : Int := size2 - receivedBytes
        let size3 : Int := if remaining < size2 then remaining else size2
        match copyN avail size3.toNat with
        | none => .ioErr
        | some p => loopA fuel size p.2 (acc ++ p.1) (receivedBytes + size3)

/-- ReadConnSec, first revision (src/lib.go 66-85). -/
def ReadConnSecA (fuel : Nat) (size : Int) (avail : List Nat) : RRes :=
  loopA fuel size avail [] 0

/-- The loop of ReadConnSec in the second revision (src/lib.go 470-489):
remaining is computed against the requested length. -/
def loopB : Nat → Int → List Nat → List Nat → Int → RRes
  | 0, _, _, _, _ => .diverge
  | fuel + 1, length, avail, acc, receivedBytes =>
      if receivedBytes ≥ length then .ok acc
      else
        let size : Int := bufferSize
        let remaining : Int := length - receivedBytes
        let size2 : Int := if remaining < size then remaining else size
        match copyN avail size2.toNat with
        | none => .ioErr
        | some p => loopB fuel length p.2 (acc ++ p.1) (receivedBytes + size2)

/-- ReadConnSec, second revision (src/lib.go 470-489). -/
def ReadConnSecB (fuel : Nat) (length : Int) (avail : List Nat) : RRes :=
  loopB fuel length avail [] 0

end ReadSec

namespace Crypt

/-- What Decrypt does with its input, seen from the caller: a runtime panic
from an out-of-range slice, an error return, or a decrypted plaintext. -/
inductive DecRes where
  | panicked
  | errored
  | ok : List Nat → DecRes
deriving DecidableEq

/-- The AES-GCM standard nonce size used by cipher.NewGCM. -/
def gcmNonceSize : Nat := 12

/-- Length of the key CreateHash produces (src/lib.go 923-927): the 32
hexadecimal characters of an MD5 digest, hence a valid AES-256 key. -/
def aesKeyLength : Nat := 32

/-- Decrypt (src/lib.go 943-956 and 383-396, identical in both revisions):
build the key (aes.NewCipher errors only on an invalid key length, which the
32-byte CreateHash output never triggers), then slice the input at the nonce
size — in Go, data[:n] panics when n exceeds len(data) — and authenticated-
decrypt the remainder.  The AES-GCM Open operation itself is the gcmOpen
parameter: it returns a plaintext or fails, and the claim under study concerns
only the slicing, not the cipher. -/
def Decrypt (gcmOpen : List Nat → List Nat → Option (List Nat))
    (data : List Nat) : DecRes :=
  if ¬(aesKeyLength = 16 ∨ aesKeyLength = 24 ∨ aesKeyLength = 32) then .errored
  else if data.length < gcmNonceSize then .panicked
  else
    match gcmOpen (data.take gcmNonceSize) (data.drop gcmNonceSize) with
    | some pt => .ok pt
    | none => .errored

end Crypt

namespace Ex

/-- Target used by the C1 scenario: a non-blank After hook. -/
def t1 : Cert.Target :=
  { Name := "app", Filename := "srv/app", Authorized := ["alice"]
    Before := "", After := "run.sh" }

/-- C1 hook outcomes: the first After run fails, the rollback's re-run
succeeds. -/
def h1 : Cert.Hooks :=
  { beforeOk := true, afterOk := false, afterOk2 := true, deleteOk := true }

/-- C1 initial state: a prior artifact and an empty backup directory. -/
def s1 : Cert.DState := { artifact := some "oldbin", backups := [] }

/-- Unit used by the lib-revision C1 scenario: a non-empty AfterCmds list. -/
def u1L : Lib.GoUnit :=
  { AllowedActors := ["alice"], Filepath := "srv/app", Name := "app"
    SystemTargets := [], AfterCmds := ["check.sh"], BeforeCmds := [] }

/-- Configuration for the lib-revision C1 scenario. -/
def c1L : Lib.Conf :=
  { Actors := [{ Name := "alice", Password := "pw" }], Units := [u1L]
    BackupDirectory := "bak" }

/-- Lib-revision C1 hook outcomes: AfterCmds fail, deletes succeed. -/
def h1L : Lib.LibHooks :=
  { beforeOk := true, afterOk := false, deleteFailedOk := true, deleteBackupOk := true }

/-- Lib-revision C1 initial state. -/
def s1L : Lib.LState := { artifact := some "oldbin", backups := [] }

/-- Unit used by the C2 scenario. -/
def u2 : Lib.GoUnit :=
  { AllowedActors := ["alice"], Filepath := "srv/app", Name := "app"
    SystemTargets := [], AfterCmds := [], BeforeCmds := [] }

/-- Configuration for the C2 scenario. -/
def c2 : Lib.Conf :=
  { Actors := [{ Name := "alice", Password := "pw" }], Units := [u2]
    BackupDirectory := "bak" }

/-- C2 hook outcomes (all healthy; the payload itself is what is rejected). -/
def h2 : Lib.LibHooks :=
  { beforeOk := true, afterOk := true, deleteFailedOk := true, deleteBackupOk := true }

/-- C2 initial state: a prior artifact at the unit path. -/
def s2 : Lib.LState := { artifact := some "oldbin", backups := [] }

/-- Cert-revision target for the C2 witness. -/
def t2C : Cert.Target :=
  { Name := "app", Filename := "srv/app", Authorized := ["alice"]
    Before := "", After := "run.sh" }

/-- Cert-revision hook outcomes for the C2 witness. -/
def h2C : Cert.Hooks :=
  { beforeOk := true, afterOk := true, afterOk2 := true, deleteOk := true }

/-- Cert-revision initial state for the C2 witness. -/
def s2C : Cert.DState := { artifact := some "oldbin", backups := [] }

/-- Unit used by the C3 scenario: a non-empty BeforeCmds list. -/
def u3 : Lib.GoUnit :=
  { AllowedActors := ["alice"], Filepath := "srv/app", Name := "app"
    SystemTargets := [], AfterCmds := [], BeforeCmds := ["pre.sh"] }

/-- Configuration for the C3 scenario. -/
def c3 : Lib.Conf :=
  { Actors := [{ Name := "alice", Password := "pw" }], Units := [u3]
    BackupDirectory := "bak" }

/-- C3 hook outcomes: BeforeCmds fail, everything else succeeds. -/
def h3 : Lib.LibHooks :=
  { beforeOk := false, afterOk := true, deleteFailedOk := true, deleteBackupOk := true }

/-- C3 initial state: a prior artifact at the unit path. -/
def s3 : Lib.LState := { artifact := some "oldbin", backups := [] }

/-- Cert-revision target for the C3 witness: a non-blank Before hook. -/
def t3C : Cert.Target :=
  { Name := "app", Filename := "srv/app", Authorized := ["alice"]
    Before := "pre.sh", After := "run.sh" }

/-- Cert-revision hook outcomes for the C3 witness: the Before script fails. -/
def h3C : Cert.Hooks :=
  { beforeOk := false, afterOk := true, afterOk2 := true, deleteOk := true }

/-- Cert-revision initial state for the C3 witness. -/
def s3C : Cert.DState := { artifact := some "oldbin", backups := [] }

/-- Configuration for the C4 witness: one known key, one target. -/
def cfg4 : Cert.Config :=
  { AuthorizedKeys := [("sigA", "alice")], BackupDirectory := "bak"
    Targets := [t1] }

/-- Lib configuration for the C4 witness. -/
def c4L : Lib.Conf :=
  { Actors := [{ Name := "alice", Password := "pw" }], Units := [u2]
    BackupDirectory := "bak" }

/-- Configuration for the C5 witness. -/
def cfg5 : Cert.Config :=
  { AuthorizedKeys := [("sigA", "alice")], BackupDirectory := "bak"
    Targets := [t1] }

/-- Unit used by the C6 scenario: no custom commands, so the deployment
succeeds up to the backup delete. -/
def u6 : Lib.GoUnit :=
  { AllowedActors := ["alice"], Filepath := "srv/app", Name := "app"
    SystemTargets := [], AfterCmds := [], BeforeCmds := [] }

/-- Configuration for the C6 scenario. -/
def c6 : Lib.Conf :=
  { Actors := [{ Name := "alice", Password := "pw" }], Units := [u6]
    BackupDirectory := "bak" }

/-- C6 hook outcomes: the os.RemoveAll of the backup at commit fails. -/
def h6 : Lib.LibHooks :=
  { beforeOk := true, afterOk := true, deleteFailedOk := true, deleteBackupOk := false }

/-- C6 initial state: a prior artifact, so a backup is created. -/
def s6 : Lib.LState := { artifact := some "oldbin", backups := [] }

/-- Cert-revision target for the C6 witness. -/
def t6C : Cert.Target :=
  { Name := "app", Filename := "srv/app", Authorized := ["alice"]
    Before := "", After := "" }

/-- Cert-revision hook outcomes for the C6 witness: backup delete fails. -/
def h6C : Cert.Hooks :=
  { beforeOk := true, afterOk := true, afterOk2 := true, deleteOk := false }

/-- Cert-revision initial state for the C6 witness. -/
def s6C : Cert.DState := { artifact := some "oldbin", backups := [] }

/-- Target for the C7 witness. -/
def t7 : Cert.Target :=
  { Name := "app", Filename := "srv/app", Authorized := ["alice"]
    Before := "", After := "" }

/-- C7 hook outcomes: everything succeeds. -/
def h7 : Cert.Hooks :=
  { beforeOk := true, afterOk := true, afterOk2 := true, deleteOk := true }

/-- C7 initial state: no prior artifact. -/
def s7 : Cert.DState := { artifact := none, backups := [] }

/-- Configuration refuting the wildcard reading of CheckAuth: the unit lists
the wildcard entry, the actor is authenticated, yet CheckAuth denies. -/
def c8 : Lib.Conf :=
  { Actors := [{ Name := "alice", Password := "pw" }]
    Units := [{ AllowedActors := ["*"], Filepath := "srv/app", Name := "app"
                SystemTargets := [], AfterCmds := [], BeforeCmds := [] }]
    BackupDirectory := "bak" }

/-- Target for the C8 witness of the modelled Allows equivalence. -/
def t8 : Cert.Target :=
  { Name := "app", Filename := "srv/app", Authorized := ["*"]
    Before := "", After := "" }

end Ex

/-! Helper lemmas about the backup-directory operations. -/

theorem keysOf_cons (b : String × String) (B : BakDir) :
    keysOf (b :: B) = b.1 :: keysOf B := rfl

theorem lookupBak_cons_self (k v : String) (C : BakDir) :
    lookupBak ((k, v) :: C) k = some v := by
  simp [lookupBak]

theorem lookupBak_append_of_absent (B C : BakDir) (k : String)
    (h : k ∉ keysOf B) : lookupBak (B ++ C) k = lookupBak C k := by
  induction B with
  | nil => simp
  | cons b B ih =>
      rw [keysOf_cons, List.mem_cons] at h
      push_neg at h
      have hne : (b.1 == k) = false := beq_eq_false_iff_ne.mpr (Ne.symm h.1)
      simp only [List.cons_append, lookupBak, List.find?_cons, hne]
      exact ih h.2

theorem not_mem_keys_eraseBak (B : BakDir) (k : String) :
    k ∉ keysOf (eraseBak B k) := by
  simp only [keysOf, eraseBak, List.mem_map]
  rintro ⟨b, hb, rfl⟩
  have := List.of_mem_filter hb
  simp at this

theorem eraseBak_append (B C : BakDir) (k : String) :
    eraseBak (B ++ C) k = eraseBak B k ++ eraseBak C k := by
  simp [eraseBak, List.filter_append]

theorem eraseBak_of_absent (B : BakDir) (k : String) (h : k ∉ keysOf B) :
    eraseBak B k = B := by
  rw [eraseBak, List.filter_eq_self]
  intro b hb
  simp only [Bool.not_eq_true']
  have : b.1 ≠ k := by
    intro e
    exact h (show k ∈ B.map Prod.fst from List.mem_map.mpr ⟨b, hb, e⟩)
  simp [this]

theorem eraseBak_single_self (k v : String) : eraseBak [(k, v)] k = [] := by
  simp [eraseBak]

theorem eraseBak_single_of_ne (k v k2 : String) (h : k ≠ k2) :
    eraseBak [(k, v)] k2 = [(k, v)] := by
  simp [eraseBak, h]

theorem eraseBak_eraseBak (B : BakDir) (k : String) :
    eraseBak (eraseBak B k) k = eraseBak B k :=
  eraseBak_of_absent _ _ (not_mem_keys_eraseBak B k)

theorem insertBak_of_absent (B : BakDir) (k v : String) (h : k ∉ keysOf B) :
    insertBak B k v = B ++ [(k, v)] := by
  rw [insertBak, eraseBak_of_absent B k h]

theorem lookupBak_insert_self (B : BakDir) (k v : String) :
    lookupBak (insertBak B k v) k = some v := by
  rw [insertBak, lookupBak_append_of_absent _ _ _ (not_mem_keys_eraseBak B k)]
  exact lookupBak_cons_self k v []

theorem eraseBak_insert_self (B : BakDir) (k v : String) :
    eraseBak (insertBak B k v) k = eraseBak B k := by
  rw [insertBak, eraseBak_append, eraseBak_single_self, List.append_nil,
    eraseBak_eraseBak]

/-! Helper lemmas about the authentication and authorization loops. -/

theorem strInList_iff (xs : List String) (x : String) :
    Lib.StrInList xs x = true ↔ x ∈ xs := by
  induction xs with
  | nil => simp [Lib.StrInList]
  | cons y ys ih =>
      by_cases h : x = y
      · simp [Lib.StrInList, h]
      · simp [Lib.StrInList, h, ih]

theorem checkUnitsLoop_iff (us : List Lib.GoUnit) (unit name : String) :
    ∀ xs : List String,
      Lib.checkUnitsLoop us unit name xs = true ↔
        ((∀ u ∈ us, u.Name = unit → name ∈ u.AllowedActors)
         ∧ unit ∈ xs ++ us.map (fun u => u.Name)) := by
  induction us with
  | nil =>
      intro xs
      simp [Lib.checkUnitsLoop, strInList_iff]
  | cons x rest ih =>
      intro xs
      rw [Lib.checkUnitsLoop]
      by_cases h : x.Name = unit ∧ Lib.StrInList x.AllowedActors name = false
      · rw [if_pos h]
        constructor
        · intro hf
          simp at hf
        · rintro ⟨hall, -⟩
          have hmem : name ∈ x.AllowedActors := hall x (List.mem_cons_self x rest) h.1
          rw [← strInList_iff] at hmem
          rw [h.2] at hmem
          simp at hmem
      · rw [if_neg h, ih (xs ++ [x.Name])]
        constructor
        · rintro ⟨hall, hmem⟩
          refine ⟨?_, ?_⟩
          · intro u hu hname
            rcases List.mem_cons.mp hu with hu | hu
            · subst hu
              by_contra hna
              rw [← strInList_iff] at hna
              push_neg at hna
              exact h ⟨hname, Bool.not_eq_true _ ▸ Bool.eq_false_iff.mpr hna⟩
            · exact hall u hu hname
          · simpa [List.append_assoc] using hmem
        · rintro ⟨hall, hmem⟩
          refine ⟨fun u hu hn => hall u (List.mem_cons_of_mem x hu) hn, ?_⟩
          simpa [List.append_assoc] using hmem

theorem checkAuth_iff (c : Lib.Conf) (unit name : String) :
    Lib.CheckAuth c unit name = true ↔
      (name ∈ c.Actors.map (fun a => a.Name)
       ∧ (∀ u ∈ c.Units, u.Name = unit → name ∈ u.AllowedActors)
       ∧ unit ∈ c.Units.map (fun u => u.Name)) := by
  rw [Lib.CheckAuth]
  by_cases h : Lib.StrInList (c.Actors.map fun x => x.Name) name = false
  · rw [if_pos h]
    constructor
    · intro hf
      simp at hf
    · rintro ⟨hmem, -⟩
      rw [← strInList_iff, h] at hmem
      simp at hmem
  · rw [if_neg h]
    have hname : name ∈ c.Actors.map fun a => a.Name := by
      rw [← strInList_iff]
      cases hv : Lib.StrInList (c.Actors.map fun x => x.Name) name
      · exact absurd hv h
      · rfl
    rw [checkUnitsLoop_iff c.Units unit name []]
    simp [hname]

/-! Helper lemmas about the lib-revision backup names. -/

/-! Helper lemmas about the first-revision ReadConnSec loop. -/

theorem loopA_stuck (size : Int) (hsize : 1024 < size) :
    ∀ (fuel : Nat) (avail acc : List Nat),
      ReadSec.loopA fuel size avail acc 1024 = .diverge := by
  intro fuel
  induction fuel with
  | zero =>
      intro avail acc
      rfl
  | succ n ih =>
      intro avail acc
      rw [ReadSec.loopA]
      rw [if_neg (by omega : ¬ (1024 : Int) ≥ size)]
      simp only [ReadSec.bufferSize, ReadSec.copyN]
      norm_num
      exact ih avail acc

theorem readConnSecA_stuck_above_chunk (fuel : Nat) :
    ReadSec.ReadConnSecA fuel 1025 (List.replicate 1024 7) = .diverge := by
  cases fuel with
  | zero => rfl
  | succ n =>
      rw [ReadSec.ReadConnSecA, ReadSec.loopA]
      rw [if_neg (by norm_num : ¬ (0 : Int) ≥ 1025)]
      simp only [ReadSec.bufferSize, ReadSec.copyN]
      norm_num
      exact loopA_stuck 1025 (by norm_num) n _ _

theorem bakName_ne_failedBakName (c : Lib.Conf) (u : Lib.GoUnit) :
    Lib.bakName c u ≠ Lib.failedBakName c u := by
  intro h
  have h2 := congrArg String.length h
  rw [Lib.bakName, Lib.failedBakName] at h2
  simp only [String.length_append] at h2
  have e1 : String.length ".TS.bak" = 7 := rfl
  have e2 : String.length ".TS.failed.bak" = 14 := rfl
  omega

theorem lib_bakName_ne_empty (c : Lib.Conf) (u : Lib.GoUnit) :
    Lib.bakName c u ≠ "" := by
  intro h
  have h2 := congrArg String.length h
  rw [Lib.bakName] at h2
  simp only [String.length_append] at h2
  have e1 : String.length ".TS.bak" = 7 := rfl
  have e2 : String.length "" = 0 := rfl
  omega

theorem cert_bakName_ne_empty (t : Cert.Target) : Cert.bakName t ≠ "" := by
  intro h
  have h2 := congrArg String.length h
  rw [Cert.bakName] at h2
  simp only [String.length_append] at h2
  have e1 : String.length ".TS.bak" = 7 := rfl
  have e2 : String.length "" = 0 := rfl
  omega

/-- C1 counterexample: an After-hook failure with a backup present.  The
rollback completes — original artifact back, After hook re-run (two runs
total), terminal NOT_OK — yet the backup directory ends empty in both
revisions: the certificate revision discards the failed artifact with
os.RemoveAll and never creates a failed-backup name, and the lib revision
creates the failed.bak record but deletes it before returning, so no
failed-backup record containing the broken artifact still exists. -/
theorem c1_counterexample :
    (Cert.DeployEngine Ex.t1 [("bin", "newbin")] Ex.h1 Ex.s1).1 = Cert.Status.notOK
    ∧ (Cert.DeployEngine Ex.t1 [("bin", "newbin")] Ex.h1 Ex.s1).2.artifact = some "oldbin"
    ∧ (Cert.DeployEngine Ex.t1 [("bin", "newbin")] Ex.h1 Ex.s1).2.afterRuns = 2
    ∧ (Cert.DeployEngine Ex.t1 [("bin", "newbin")] Ex.h1 Ex.s1).2.backups = []
    ∧ (Lib.AcceptPayload Ex.c1L Ex.u1L [("bin", "newbin")] Ex.h1L Ex.s1L).1.isSome = true
    ∧ (Lib.AcceptPayload Ex.c1L Ex.u1L [("bin", "newbin")] Ex.h1L Ex.s1L).2.artifact
        = some "oldbin"
    ∧ (Lib.AcceptPayload Ex.c1L Ex.u1L [("bin", "newbin")] Ex.h1L Ex.s1L).2.backups = [] := by
  decide

/-- C2 counterexample: a two-entry staging directory with a prior artifact in
the lib revision.  The deployment is rejected, but the target path is not left
unmutated: the prior artifact has been moved into the backup directory before
the single-entry check runs, and it stays there while the artifact path is
left empty. -/
theorem c2_counterexample :
    (Lib.AcceptPayload Ex.c2 Ex.u2 [("a", "x"), ("b", "y")] Ex.h2 Ex.s2).1.isSome = true
    ∧ (Lib.AcceptPayload Ex.c2 Ex.u2 [("a", "x"), ("b", "y")] Ex.h2 Ex.s2).2.artifact = none
    ∧ (Lib.AcceptPayload Ex.c2 Ex.u2 [("a", "x"), ("b", "y")] Ex.h2 Ex.s2).2.backups
        = [("bak/app.TS.bak", "oldbin")]
    ∧ (Lib.AcceptPayload Ex.c2 Ex.u2 [("a", "x"), ("b", "y")] Ex.h2 Ex.s2).2.backupMoves
        = 1 := by
  decide

/-- C3 counterexample: failing BeforeCmds in the lib revision.  The engine
does not abort before the backup and move: the artifact has already been moved
to the backup directory and activated (one backup move), and a restore is
attempted (one systemctl restart) before the failure is reported. -/
theorem c3_counterexample :
    (Lib.AcceptPayload Ex.c3 Ex.u3 [("bin", "newbin")] Ex.h3 Ex.s3).1.isSome = true
    ∧ (Lib.AcceptPayload Ex.c3 Ex.u3 [("bin", "newbin")] Ex.h3 Ex.s3).2.backupMoves = 1
    ∧ (Lib.AcceptPayload Ex.c3 Ex.u3 [("bin", "newbin")] Ex.h3 Ex.s3).2.restarts = 1 := by
  decide

/-- C6 counterexample: in the lib revision an otherwise-successful deployment
whose backup delete fails is reported as a failed session (AcceptPayload
returns the delete error) even though the new artifact is in place, so the
failure to delete the backup does abort the already-successful deployment
there. -/
theorem c6_counterexample :
    (Lib.AcceptPayload Ex.c6 Ex.u6 [("bin", "newbin")] Ex.h6 Ex.s6).1.isSome = true
    ∧ (Lib.AcceptPayload Ex.c6 Ex.u6 [("bin", "newbin")] Ex.h6 Ex.s6).2.artifact
        = some "newbin"
    ∧ (Lib.AcceptPayload Ex.c6 Ex.u6 [("bin", "newbin")] Ex.h6 Ex.s6).2.backups
        = [("bak/app.TS.bak", "oldbin")] := by
  decide

/-- C8 counterexample: the actor alice is authenticated, the unit app exists,
and its AllowedActors list carries the wildcard entry, yet CheckAuth denies
the deployment: the password-revision authorization has no wildcard
semantics. -/
theorem c8_counterexample :
    Lib.StrInList (Ex.c8.Actors.map (fun a => a.Name)) "alice" = true
    ∧ (Ex.c8.Units.map (fun u => u.Name)) = ["app"]
    ∧ Lib.StrInList (Lib.GetUnit Ex.c8 "app").AllowedActors "*" = true
    ∧ Lib.CheckAuth Ex.c8 "app" "alice" = false := by
  decide

/-- C4: for every authenticated session requesting a target name absent from
the configuration, the daemon replies NOT_EXIST; the existence check precedes
any authorization decision, so the reply is NOT_EXIST for every configuration
— whatever authorized-principal sets its targets carry — and in the
password-based revision CheckAuth likewise denies an absent unit without any
AllowedActors list being able to change the outcome. -/
theorem c4_absent_target_notExist :
    (∀ (cfg : Cert.Config) (sig input : String) (streamOk unpackOk : Bool)
        (staged : List (String × String)) (h : Cert.Hooks) (s : Cert.DState),
        cfg.GetSignatureName sig ≠ "" →
        cfg.GetTargetByName input = none →
        Cert.HandleServerConn cfg sig .deploy input streamOk unpackOk staged h s
          = (Cert.Status.notExist, s))
    ∧ (∀ (c : Lib.Conf) (unit name : String),
        unit ∉ c.Units.map (fun u => u.Name) →
        Lib.CheckAuth c unit name = false) := by
  constructor
  · intro cfg sig input so uo staged h s hname htgt
    simp only [Cert.HandleServerConn]
    rw [if_neg hname, htgt]
  · intro c unit name habs
    cases hv : Lib.CheckAuth c unit name with
    | false => rfl
    | true =>
        have := ((checkAuth_iff c unit name).mp hv).2.2
        exact absurd this habs

/-- Witness for c4_absent_target_notExist at a concrete configuration and a
concrete absent target name. -/
theorem c4_absent_target_notExist_witness :
    Cert.HandleServerConn Ex.cfg4 "sigA" .deploy "ghost" true true
        [("bin", "newbin")] Ex.h1 Ex.s1 = (Cert.Status.notExist, Ex.s1)
    ∧ Lib.CheckAuth Ex.c4L "ghost" "alice" = false := by
  exact ⟨c4_absent_target_notExist.1 Ex.cfg4 "sigA" "ghost" true true
      [("bin", "newbin")] Ex.h1 Ex.s1 (by decide) (by decide),
    c4_absent_target_notExist.2 Ex.c4L "ghost" "alice" (by decide)⟩

/-- C5: a session whose credential resolves to no principal in the authority
is reported BLOCKED — not NOT_OK and not NOT_EXIST — whatever target name was
requested. -/
theorem c5_unknown_credential_blocked (cfg : Cert.Config) (sig input : String)
    (streamOk unpackOk : Bool) (staged : List (String × String))
    (h : Cert.Hooks) (s : Cert.DState)
    (hname : cfg.GetSignatureName sig = "") :
    Cert.HandleServerConn cfg sig .deploy input streamOk unpackOk staged h s
      = (Cert.Status.blocked, s) := by
  simp only [Cert.HandleServerConn]
  rw [if_pos hname]

/-- Witness for c5_unknown_credential_blocked: an unknown signature is blocked
both on an existing and on an absent target name. -/
theorem c5_unknown_credential_blocked_witness :
    Cert.HandleServerConn Ex.cfg5 "sigZ" .deploy "app" true true
      [("bin", "newbin")] Ex.h1 Ex.s1 = (Cert.Status.blocked, Ex.s1) :=
  c5_unknown_credential_blocked Ex.cfg5 "sigZ" "app" true true
    [("bin", "newbin")] Ex.h1 Ex.s1 (by decide)

/-- C7: deploying to a target with no prior artifact creates no backup record,
treats the absence as no error, and commits with OK when the hooks succeed;
only the hook counters and the artifact itself change. -/
theorem c7_first_deploy_commits_without_backup (t : Cert.Target)
    (e : String × String) (h : Cert.Hooks) (s : Cert.DState)
    (ha : s.artifact = none)
    (hb : Cert.RunScript t.Before h.beforeOk = true)
    (hf : Cert.RunScript t.After h.afterOk = true) :
    Cert.DeployEngine t [e] h s =
      (Cert.Status.ok,
       { s with
           artifact := some e.2
           beforeRuns := s.beforeRuns + 1
           afterRuns := s.afterRuns + 1 }) := by
  simp [Cert.DeployEngine, Cert.BackupTarget, Cert.MoveTarget, ha, hb, hf]

/-- Witness for c7_first_deploy_commits_without_backup at a concrete target
with blank hooks and an empty initial state. -/
theorem c7_first_deploy_commits_without_backup_witness :
    Cert.DeployEngine Ex.t7 [("bin", "newbin")] Ex.h7 Ex.s7 =
      (Cert.Status.ok,
       { Ex.s7 with
           artifact := some "newbin"
           beforeRuns := Ex.s7.beforeRuns + 1
           afterRuns := Ex.s7.afterRuns + 1 }) :=
  c7_first_deploy_commits_without_backup Ex.t7 ("bin", "newbin") Ex.h7 Ex.s7
    (by decide) (by decide) (by decide)

/-- C1 amended: when the After hook fails and a backup exists, rollback
restores the original artifact at the target path, re-runs the After hook,
and reports a terminal failure; but no failed-backup record survives the
rollback: the certificate revision deletes the failed artifact outright
(never creating a failed-backup name), and the lib revision renames it to a
failed.bak record that it deletes again once the restore has succeeded, so in
both the backup directory ends as it began. -/
theorem c1_amended :
    (∀ (t : Cert.Target) (e : String × String) (a : String) (h : Cert.Hooks)
        (s : Cert.DState),
        Cert.RunScript t.Before h.beforeOk = true →
        Cert.RunScript t.After h.afterOk = false →
        s.artifact = some a →
        Cert.bakName t ∉ keysOf s.backups →
        (Cert.DeployEngine t [e] h s).1 = Cert.Status.notOK
        ∧ (Cert.DeployEngine t [e] h s).2.artifact = some a
        ∧ (Cert.DeployEngine t [e] h s).2.afterRuns = s.afterRuns + 2
        ∧ (Cert.DeployEngine t [e] h s).2.backups = s.backups)
    ∧ (∀ (c : Lib.Conf) (u : Lib.GoUnit) (e : String × String) (a : String)
        (h : Lib.LibHooks) (s : Lib.LState),
        Lib.RunUnitCmds u.BeforeCmds h.beforeOk = true →
        Lib.RunUnitCmds u.AfterCmds h.afterOk = false →
        h.deleteFailedOk = true →
        s.artifact = some a →
        Lib.bakName c u ∉ keysOf s.backups →
        Lib.failedBakName c u ∉ keysOf s.backups →
        (Lib.AcceptPayload c u [e] h s).1.isSome = true
        ∧ (Lib.AcceptPayload c u [e] h s).2.artifact = some a
        ∧ (Lib.AcceptPayload c u [e] h s).2.restarts = s.restarts + 1
        ∧ (Lib.AcceptPayload c u [e] h s).2.backups = s.backups) := by
  constructor
  · intro t e a h s hb hf ha hk
    have hL : lookupBak (insertBak s.backups (Cert.bakName t) a) (Cert.bakName t)
        = some a := lookupBak_insert_self _ _ _
    have hE : eraseBak (insertBak s.backups (Cert.bakName t) a) (Cert.bakName t)
        = s.backups := by
      rw [eraseBak_insert_self, eraseBak_of_absent _ _ hk]
    refine ⟨?_, ?_, ?_, ?_⟩ <;>
      simp [Cert.DeployEngine, Cert.BackupTarget, Cert.MoveTarget, Cert.Restore,
        hb, hf, ha, hL, hE]
  · intro c u e a h s hb hf hd ha hk1 hk2
    have hne : Lib.bakName c u ≠ Lib.failedBakName c u := bakName_ne_failedBakName c u
    have hins1 : insertBak s.backups (Lib.bakName c u) a
        = s.backups ++ [(Lib.bakName c u, a)] := insertBak_of_absent _ _ _ hk1
    have hfb : Lib.failedBakName c u ∉ keysOf (s.backups ++ [(Lib.bakName c u, a)]) := by
      simp only [keysOf, List.map_append, List.mem_append, List.map_cons, List.map_nil,
        List.mem_singleton]
      rintro (hmem | hmem)
      · exact hk2 hmem
      · exact hne (by simpa using hmem.symm)
    have hins2 : insertBak (s.backups ++ [(Lib.bakName c u, a)])
          (Lib.failedBakName c u) e.2
        = (s.backups ++ [(Lib.bakName c u, a)]) ++ [(Lib.failedBakName c u, e.2)] :=
      insertBak_of_absent _ _ _ hfb
    have hne' : Lib.failedBakName c u ≠ Lib.bakName c u := Ne.symm hne
    have hL : lookupBak
          (s.backups ++ [(Lib.bakName c u, a), (Lib.failedBakName c u, e.2)])
          (Lib.bakName c u) = some a := by
      rw [lookupBak_append_of_absent _ _ _ hk1]
      exact lookupBak_cons_self _ _ _
    have hE1 : eraseBak
          (s.backups ++ [(Lib.bakName c u, a), (Lib.failedBakName c u, e.2)])
          (Lib.bakName c u)
        = s.backups ++ [(Lib.failedBakName c u, e.2)] := by
      rw [eraseBak_append, eraseBak_of_absent _ _ hk1]
      simp [eraseBak, hne']
    have hE2 : eraseBak (s.backups ++ [(Lib.failedBakName c u, e.2)])
          (Lib.failedBakName c u) = s.backups := by
      rw [eraseBak_append, eraseBak_of_absent _ _ hk2, eraseBak_single_self,
        List.append_nil]
    refine ⟨?_, ?_, ?_, ?_⟩ <;>
      simp [Lib.AcceptPayload, Lib.restoreBackup, hb, hf, hd, ha, hins1, hins2,
        hL, hE1, hE2]

/-- Witness for c1_amended at the concrete C1 scenario in both revisions. -/
theorem c1_amended_witness :
    ((Cert.DeployEngine Ex.t1 [("bin", "newbin")] Ex.h1 Ex.s1).1 = Cert.Status.notOK
      ∧ (Cert.DeployEngine Ex.t1 [("bin", "newbin")] Ex.h1 Ex.s1).2.artifact = some "oldbin"
      ∧ (Cert.DeployEngine Ex.t1 [("bin", "newbin")] Ex.h1 Ex.s1).2.afterRuns
          = Ex.s1.afterRuns + 2
      ∧ (Cert.DeployEngine Ex.t1 [("bin", "newbin")] Ex.h1 Ex.s1).2.backups
          = Ex.s1.backups)
    ∧ ((Lib.AcceptPayload Ex.c1L Ex.u1L [("bin", "newbin")] Ex.h1L Ex.s1L).1.isSome = true
      ∧ (Lib.AcceptPayload Ex.c1L Ex.u1L [("bin", "newbin")] Ex.h1L Ex.s1L).2.artifact
          = some "oldbin"
      ∧ (Lib.AcceptPayload Ex.c1L Ex.u1L [("bin", "newbin")] Ex.h1L Ex.s1L).2.restarts
          = Ex.s1L.restarts + 1
      ∧ (Lib.AcceptPayload Ex.c1L Ex.u1L [("bin", "newbin")] Ex.h1L Ex.s1L).2.backups
          = Ex.s1L.backups) :=
  ⟨c1_amended.1 Ex.t1 ("bin", "newbin") "oldbin" Ex.h1 Ex.s1
      (by decide) (by decide) (by decide) (by decide),
    c1_amended.2 Ex.c1L Ex.u1L ("bin", "newbin") "oldbin" Ex.h1L Ex.s1L
      (by decide) (by decide) (by decide) (by decide) (by decide) (by decide)⟩

theorem moveTarget_none_of_length_ne_one (staged : List (String × String))
    (h : staged.length ≠ 1) (s : Cert.DState) : Cert.MoveTarget staged s = none := by
  cases staged with
  | nil => rfl
  | cons x xs =>
      cases xs with
      | nil => simp at h
      | cons y ys => rfl

/-- C2 amended: an archive whose staging directory does not hold exactly one
top-level entry is rejected before the staged payload is activated, but only
after the prior artifact has already been moved to the backup directory: in
the certificate revision the restore sequence then moves it back and re-runs
the After hook before NOT_OK is reported, while in the lib revision the prior
artifact simply remains in the backup directory and the artifact path is left
empty. -/
theorem c2_amended :
    (∀ (t : Cert.Target) (staged : List (String × String)) (a : String)
        (h : Cert.Hooks) (s : Cert.DState),
        staged.length ≠ 1 →
        Cert.RunScript t.Before h.beforeOk = true →
        s.artifact = some a →
        Cert.bakName t ∉ keysOf s.backups →
        (Cert.DeployEngine t staged h s).1 = Cert.Status.notOK
        ∧ (Cert.DeployEngine t staged h s).2.artifact = some a
        ∧ (Cert.DeployEngine t staged h s).2.backupMoves = s.backupMoves + 1
        ∧ (Cert.DeployEngine t staged h s).2.afterRuns = s.afterRuns + 1
        ∧ (Cert.DeployEngine t staged h s).2.backups = s.backups)
    ∧ (∀ (c : Lib.Conf) (u : Lib.GoUnit) (staged : List (String × String))
        (a : String) (h : Lib.LibHooks) (s : Lib.LState),
        staged.length ≠ 1 →
        s.artifact = some a →
        Lib.bakName c u ∉ keysOf s.backups →
        (Lib.AcceptPayload c u staged h s).1.isSome = true
        ∧ (Lib.AcceptPayload c u staged h s).2.artifact = none
        ∧ (Lib.AcceptPayload c u staged h s).2.backups
            = s.backups ++ [(Lib.bakName c u, a)]
        ∧ (Lib.AcceptPayload c u staged h s).2.backupMoves
            = s.backupMoves + 1) := by
  constructor
  · intro t staged a h s hlen hb ha hk
    have hmv := moveTarget_none_of_length_ne_one staged hlen
    have hL : lookupBak (insertBak s.backups (Cert.bakName t) a) (Cert.bakName t)
        = some a := lookupBak_insert_self _ _ _
    have hE : eraseBak (insertBak s.backups (Cert.bakName t) a) (Cert.bakName t)
        = s.backups := by
      rw [eraseBak_insert_self, eraseBak_of_absent _ _ hk]
    refine ⟨?_, ?_, ?_, ?_, ?_⟩ <;>
      simp [Cert.DeployEngine, Cert.BackupTarget, Cert.Restore, hb, ha, hmv, hL, hE]
  · intro c u staged a h s hlen ha hk
    have hins : insertBak s.backups (Lib.bakName c u) a
        = s.backups ++ [(Lib.bakName c u, a)] := insertBak_of_absent _ _ _ hk
    cases staged with
    | nil =>
        refine ⟨?_, ?_, ?_, ?_⟩ <;> simp [Lib.AcceptPayload, ha, hins]
    | cons x xs =>
        cases xs with
        | nil => simp at hlen
        | cons y ys =>
            refine ⟨?_, ?_, ?_, ?_⟩ <;> simp [Lib.AcceptPayload, ha, hins]

/-- Witness for c2_amended: an empty staging directory for the certificate
revision and a two-entry staging directory for the lib revision. -/
theorem c2_amended_witness :
    ((Cert.DeployEngine Ex.t2C [] Ex.h2C Ex.s2C).1 = Cert.Status.notOK
      ∧ (Cert.DeployEngine Ex.t2C [] Ex.h2C Ex.s2C).2.artifact = some "oldbin"
      ∧ (Cert.DeployEngine Ex.t2C [] Ex.h2C Ex.s2C).2.backupMoves
          = Ex.s2C.backupMoves + 1
      ∧ (Cert.DeployEngine Ex.t2C [] Ex.h2C Ex.s2C).2.afterRuns
          = Ex.s2C.afterRuns + 1
      ∧ (Cert.DeployEngine Ex.t2C [] Ex.h2C Ex.s2C).2.backups = Ex.s2C.backups)
    ∧ ((Lib.AcceptPayload Ex.c2 Ex.u2 [("a", "x"), ("b", "y")] Ex.h2 Ex.s2).1.isSome = true
      ∧ (Lib.AcceptPayload Ex.c2 Ex.u2 [("a", "x"), ("b", "y")] Ex.h2 Ex.s2).2.artifact = none
      ∧ (Lib.AcceptPayload Ex.c2 Ex.u2 [("a", "x"), ("b", "y")] Ex.h2 Ex.s2).2.backups
          = Ex.s2.backups ++ [(Lib.bakName Ex.c2 Ex.u2, "oldbin")]
      ∧ (Lib.AcceptPayload Ex.c2 Ex.u2 [("a", "x"), ("b", "y")] Ex.h2 Ex.s2).2.backupMoves
          = Ex.s2.backupMoves + 1) :=
  ⟨c2_amended.1 Ex.t2C [] "oldbin" Ex.h2C Ex.s2C
      (by decide) (by decide) (by decide) (by decide),
    c2_amended.2 Ex.c2 Ex.u2 [("a", "x"), ("b", "y")] "oldbin" Ex.h2 Ex.s2
      (by decide) (by decide) (by decide)⟩

/-- C3 amended: in the certificate revision a failing Before script does
abort before any backup or move — the state is unchanged but for the script
having been run once — and the failure is reported directly with no restore.
In the lib revision, however, BeforeCmds run only after the backup and the
activation rename, and their failure triggers the rollback path: one backup
move and one restart have taken place by the time the failure is reported. -/
theorem c3_amended :
    (∀ (t : Cert.Target) (staged : List (String × String)) (h : Cert.Hooks)
        (s : Cert.DState),
        Cert.RunScript t.Before h.beforeOk = false →
        Cert.DeployEngine t staged h s
          = (Cert.Status.notOK, { s with beforeRuns := s.beforeRuns + 1 }))
    ∧ (∀ (c : Lib.Conf) (u : Lib.GoUnit) (e : String × String) (a : String)
        (h : Lib.LibHooks) (s : Lib.LState),
        Lib.RunUnitCmds u.BeforeCmds h.beforeOk = false →
        h.deleteFailedOk = true →
        s.artifact = some a →
        Lib.bakName c u ∉ keysOf s.backups →
        Lib.failedBakName c u ∉ keysOf s.backups →
        (Lib.AcceptPayload c u [e] h s).1.isSome = true
        ∧ (Lib.AcceptPayload c u [e] h s).2.backupMoves = s.backupMoves + 1
        ∧ (Lib.AcceptPayload c u [e] h s).2.restarts = s.restarts + 1
        ∧ (Lib.AcceptPayload c u [e] h s).2.artifact = some a) := by
  constructor
  · intro t staged h s hbf
    simp [Cert.DeployEngine, hbf]
  · intro c u e a h s hbf hd ha hk1 hk2
    have hne : Lib.bakName c u ≠ Lib.failedBakName c u := bakName_ne_failedBakName c u
    have hne' : Lib.failedBakName c u ≠ Lib.bakName c u := Ne.symm hne
    have hins1 : insertBak s.backups (Lib.bakName c u) a
        = s.backups ++ [(Lib.bakName c u, a)] := insertBak_of_absent _ _ _ hk1
    have hfb : Lib.failedBakName c u ∉ keysOf (s.backups ++ [(Lib.bakName c u, a)]) := by
      simp only [keysOf, List.map_append, List.mem_append, List.map_cons, List.map_nil,
        List.mem_singleton]
      rintro (hmem | hmem)
      · exact hk2 hmem
      · exact hne (by simpa using hmem.symm)
    have hins2 : insertBak (s.backups ++ [(Lib.bakName c u, a)])
          (Lib.failedBakName c u) e.2
        = (s.backups ++ [(Lib.bakName c u, a)]) ++ [(Lib.failedBakName c u, e.2)] :=
      insertBak_of_absent _ _ _ hfb
    have hL : lookupBak
          (s.backups ++ [(Lib.bakName c u, a), (Lib.failedBakName c u, e.2)])
          (Lib.bakName c u) = some a := by
      rw [lookupBak_append_of_absent _ _ _ hk1]
      exact lookupBak_cons_self _ _ _
    have hE1 : eraseBak
          (s.backups ++ [(Lib.bakName c u, a), (Lib.failedBakName c u, e.2)])
          (Lib.bakName c u)
        = s.backups ++ [(Lib.failedBakName c u, e.2)] := by
      rw [eraseBak_append, eraseBak_of_absent _ _ hk1]
      simp [eraseBak, hne']
    have hE2 : eraseBak (s.backups ++ [(Lib.failedBakName c u, e.2)])
          (Lib.failedBakName c u) = s.backups := by
      rw [eraseBak_append, eraseBak_of_absent _ _ hk2, eraseBak_single_self,
        List.append_nil]
    refine ⟨?_, ?_, ?_, ?_⟩ <;>
      simp [Lib.AcceptPayload, Lib.restoreBackup, hbf, hd, ha, hins1, hins2,
        hL, hE1, hE2]

/-- Witness for c3_amended: a failing Before script in the certificate
revision and failing BeforeCmds in the lib revision. -/
theorem c3_amended_witness :
    Cert.DeployEngine Ex.t3C [("bin", "newbin")] Ex.h3C Ex.s3C
      = (Cert.Status.notOK, { Ex.s3C with beforeRuns := Ex.s3C.beforeRuns + 1 })
    ∧ ((Lib.AcceptPayload Ex.c3 Ex.u3 [("bin", "newbin")] Ex.h3 Ex.s3).1.isSome = true
      ∧ (Lib.AcceptPayload Ex.c3 Ex.u3 [("bin", "newbin")] Ex.h3 Ex.s3).2.backupMoves
          = Ex.s3.backupMoves + 1
      ∧ (Lib.AcceptPayload Ex.c3 Ex.u3 [("bin", "newbin")] Ex.h3 Ex.s3).2.restarts
          = Ex.s3.restarts + 1
      ∧ (Lib.AcceptPayload Ex.c3 Ex.u3 [("bin", "newbin")] Ex.h3 Ex.s3).2.artifact
          = some "oldbin") :=
  ⟨c3_amended.1 Ex.t3C [("bin", "newbin")] Ex.h3C Ex.s3C (by decide),
    c3_amended.2 Ex.c3 Ex.u3 ("bin", "newbin") "oldbin" Ex.h3 Ex.s3
      (by decide) (by decide) (by decide) (by decide) (by decide)⟩

/-- C6 amended: in the certificate revision, backup deletion at commit is
synchronous in the session and its failure is only logged — the client still
receives OK and the backup record remains.  In the lib revision a failing
backup delete instead makes AcceptPayload return the delete error, aborting
the report of the already-successful deployment even though the new artifact
is in place. -/
theorem c6_amended :
    (∀ (t : Cert.Target) (e : String × String) (a : String) (h : Cert.Hooks)
        (s : Cert.DState),
        Cert.RunScript t.Before h.beforeOk = true →
        Cert.RunScript t.After h.afterOk = true →
        s.artifact = some a →
        h.deleteOk = false →
        Cert.bakName t ∉ keysOf s.backups →
        (Cert.DeployEngine t [e] h s).1 = Cert.Status.ok
        ∧ (Cert.DeployEngine t [e] h s).2.artifact = some e.2
        ∧ (Cert.DeployEngine t [e] h s).2.backups
            = s.backups ++ [(Cert.bakName t, a)])
    ∧ (∀ (c : Lib.Conf) (u : Lib.GoUnit) (e : String × String) (a : String)
        (h : Lib.LibHooks) (s : Lib.LState),
        Lib.RunUnitCmds u.BeforeCmds h.beforeOk = true →
        Lib.RunUnitCmds u.AfterCmds h.afterOk = true →
        s.artifact = some a →
        h.deleteBackupOk = false →
        (Lib.AcceptPayload c u [e] h s).1.isSome = true
        ∧ (Lib.AcceptPayload c u [e] h s).2.artifact = some e.2) := by
  constructor
  · intro t e a h s hb hf ha hdel hk
    have hins : insertBak s.backups (Cert.bakName t) a
        = s.backups ++ [(Cert.bakName t, a)] := insertBak_of_absent _ _ _ hk
    have hbe := cert_bakName_ne_empty t
    refine ⟨?_, ?_, ?_⟩ <;>
      simp [Cert.DeployEngine, Cert.BackupTarget, Cert.MoveTarget, hb, hf, ha,
        hdel, hins, hbe]
  · intro c u e a h s hb hf ha hdel
    have hbe := lib_bakName_ne_empty c u
    refine ⟨?_, ?_⟩ <;>
      simp [Lib.AcceptPayload, hb, hf, ha, hdel, hbe]

/-- Witness for c6_amended: backup delete failing at commit in both
revisions. -/
theorem c6_amended_witness :
    ((Cert.DeployEngine Ex.t6C [("bin", "newbin")] Ex.h6C Ex.s6C).1 = Cert.Status.ok
      ∧ (Cert.DeployEngine Ex.t6C [("bin", "newbin")] Ex.h6C Ex.s6C).2.artifact
          = some "newbin"
      ∧ (Cert.DeployEngine Ex.t6C [("bin", "newbin")] Ex.h6C Ex.s6C).2.backups
          = Ex.s6C.backups ++ [(Cert.bakName Ex.t6C, "oldbin")])
    ∧ ((Lib.AcceptPayload Ex.c6 Ex.u6 [("bin", "newbin")] Ex.h6 Ex.s6).1.isSome = true
      ∧ (Lib.AcceptPayload Ex.c6 Ex.u6 [("bin", "newbin")] Ex.h6 Ex.s6).2.artifact
          = some "newbin") :=
  ⟨c6_amended.1 Ex.t6C ("bin", "newbin") "oldbin" Ex.h6C Ex.s6C
      (by decide) (by decide) (by decide) (by decide) (by decide),
    c6_amended.2 Ex.c6 Ex.u6 ("bin", "newbin") "oldbin" Ex.h6 Ex.s6
      (by decide) (by decide) (by decide) (by decide)⟩

/-- C8 amended: in the certificate revision, authorization succeeds exactly
when the target's authorized set contains the principal's name or the
wildcard entry.  In the password revision there is no wildcard semantics:
CheckAuth succeeds exactly when the actor exists in the authority, every
configured unit carrying the requested name literally lists the actor's name,
and the requested unit exists — a wildcard entry is treated as an ordinary
name. -/
theorem c8_amended :
    (∀ (t : Cert.Target) (n : String),
        t.Allows n = true ↔ (n ∈ t.Authorized ∨ "*" ∈ t.Authorized))
    ∧ (∀ (c : Lib.Conf) (unit name : String),
        Lib.CheckAuth c unit name = true ↔
          (name ∈ c.Actors.map (fun a => a.Name)
           ∧ (∀ u ∈ c.Units, u.Name = unit → name ∈ u.AllowedActors)
           ∧ unit ∈ c.Units.map (fun u => u.Name))) := by
  constructor
  · intro t n
    simp [Cert.Target.Allows]
  · exact checkAuth_iff

/-- Witness for c8_amended at a concrete wildcard target and the concrete
wildcard configuration. -/
theorem c8_amended_witness :
    (Cert.Target.Allows Ex.t8 "bob" = true
      ↔ ("bob" ∈ Ex.t8.Authorized ∨ "*" ∈ Ex.t8.Authorized))
    ∧ (Lib.CheckAuth Ex.c8 "app" "alice" = true ↔
        ("alice" ∈ Ex.c8.Actors.map (fun a => a.Name)
         ∧ (∀ u ∈ Ex.c8.Units, u.Name = "app" → "alice" ∈ u.AllowedActors)
         ∧ "app" ∈ Ex.c8.Units.map (fun u => u.Name))) :=
  ⟨c8_amended.1 Ex.t8 "bob", c8_amended.2 Ex.c8 "app" "alice"⟩

/-- C9: the two revisions of ReadConnSec do not agree, and the first does not
terminate with the requested bytes.  The first revision, whose inner loop
variable shadows the requested size, makes no progress once 1024 bytes have
been read: for a 1025-byte request over a connection holding 1024 bytes it
loops forever at every fuel bound; and for a 1-byte request over a two-byte
connection it demands a full 1024-byte chunk and fails with an I/O error,
while the second revision returns exactly the one requested byte. -/
theorem c9_readConnSec_revisions_diverge :
    (∀ fuel : Nat,
      ReadSec.ReadConnSecA fuel 1025 (List.replicate 1024 7) = ReadSec.RRes.diverge)
    ∧ ReadSec.ReadConnSecA 30 1 [7, 7] = ReadSec.RRes.ioErr
    ∧ ReadSec.ReadConnSecB 30 1 [7, 7] = ReadSec.RRes.ok [7] :=
  ⟨readConnSecA_stuck_above_chunk, by decide, by decide⟩

/-- C10: Decrypt is not total — on any input shorter than the 12-byte AES-GCM
nonce size the slice expression data[:nonceSize] is out of range and the
function panics, for the empty input and a 5-byte input alike; inputs of at
least the nonce size are sliced successfully and reach the authenticated
decryption. -/
theorem c10_decrypt_panics_on_short_input :
    Crypt.Decrypt (fun _ _ => none) [] = Crypt.DecRes.panicked
    ∧ Crypt.Decrypt (fun _ _ => none) (List.replicate 5 0) = Crypt.DecRes.panicked
    ∧ Crypt.Decrypt (fun _ c => some c) (List.replicate 12 0) = Crypt.DecRes.ok [] := by
  refine ⟨by decide, by decide, by decide⟩
